import Mathlib

/-!
Verification development for the ESP32-S2 macropad firmware
(`ESP32-Macro-pad.ino`).  The firmware's data model and operations are
shallowly embedded as executable Lean definitions: the flash filesystem is a
finite map `String → Option String`, the HID transport is a trace of emitted
calls, the JSON library is taken at its interface (`parse : String → Option
ProfileDoc`, per the firmware's external-collaborator boundary), and the
cooperative main-loop operations (serial line handler, touch gesture scan,
per-key debounce, action interpreter) are explicit state-passing functions.
All numeric constants (`NUM_PROFILES = 3`, `DEFAULT_DEBOUNCE_MS = 50`,
`MAX_TEXT_LEN = 4096`, `MAX_REPEAT_COUNT = 50`, touch threshold `300`,
cooldown `300`) are the ones in the source.
-/

namespace Macropad

/-- ASCII lower-casing of one character, the comparison used by Arduino
`String.equalsIgnoreCase`. -/
def lcChar (c : Char) : Char :=
  if 'A' ≤ c ∧ c ≤ 'Z' then Char.ofNat (c.toNat + 32) else c

/-- Arduino `String::trim` (strip leading/trailing whitespace), modelled
structurally on the character list. -/
def strTrim (s : String) : String :=
  ⟨((s.data.dropWhile Char.isWhitespace).reverse.dropWhile Char.isWhitespace).reverse⟩

/-- Arduino `String::startsWith`. -/
def strStartsWith (s p : String) : Bool := p.data.isPrefixOf s.data

/-- Arduino `String::substring(n)` (drop the first `n` characters). -/
def strDrop (s : String) (n : Nat) : String := ⟨s.data.drop n⟩

/-- The first `n` characters of a string (used for a short write's partial
payload). -/
def strTake (s : String) (n : Nat) : String := ⟨s.data.take n⟩

/-- Arduino `String::equalsIgnoreCase`: ASCII case-insensitive equality. -/
def eqIgnoreCase (a b : String) : Bool :=
  a.data.map lcChar == b.data.map lcChar

/-- The `keyMap` table of the firmware: key name → HID usage code
(lines 114-126 of the source). -/
def keyMap : List (String × Nat) :=
  [("A", 0x04), ("B", 0x05), ("C", 0x06), ("D", 0x07), ("E", 0x08),
   ("F", 0x09), ("G", 0x0A), ("H", 0x0B), ("I", 0x0C), ("J", 0x0D),
   ("K", 0x0E), ("L", 0x0F), ("M", 0x10), ("N", 0x11), ("O", 0x12),
   ("P", 0x13), ("Q", 0x14), ("R", 0x15), ("S", 0x16), ("T", 0x17),
   ("U", 0x18), ("V", 0x19), ("W", 0x1A), ("X", 0x1B), ("Y", 0x1C),
   ("Z", 0x1D), ("1", 0x1E), ("2", 0x1F), ("3", 0x20), ("4", 0x21),
   ("5", 0x22), ("6", 0x23), ("7", 0x24), ("8", 0x25), ("9", 0x26),
   ("0", 0x27), ("ENTER", 0x28), ("ESC", 0x29), ("BACKSPACE", 0x2A),
   ("TAB", 0x2B), ("SPACE", 0x2C), ("MINUS", 0x2D), ("EQUAL", 0x2E),
   ("LEFT_BRACE", 0x2F), ("RIGHT_BRACE", 0x30), ("BACKSLASH", 0x31),
   ("SEMICOLON", 0x33), ("QUOTE", 0x34), ("TILDE", 0x35), ("COMMA", 0x36),
   ("DOT", 0x37), ("SLASH", 0x38), ("CAPS_LOCK", 0x39), ("F1", 0x3A),
   ("F2", 0x3B), ("F3", 0x3C), ("F4", 0x3D), ("F5", 0x3E), ("F6", 0x3F),
   ("F7", 0x40), ("F8", 0x41), ("F9", 0x42), ("F10", 0x43), ("F11", 0x44),
   ("F12", 0x45), ("INSERT", 0x49), ("HOME", 0x4A), ("PAGEUP", 0x4B),
   ("DELETE", 0x4C), ("END", 0x4D), ("PAGEDOWN", 0x4E), ("RIGHT_ARROW", 0x4F),
   ("LEFT_ARROW", 0x50), ("DOWN_ARROW", 0x51), ("UP_ARROW", 0x52)]

/-- The `modMap` table: modifier name → Arduino keyboard modifier code
(`KEY_LEFT_CTRL = 0x80` … `KEY_RIGHT_GUI = 0x87`, values from the external
`USBHIDKeyboard` header). -/
def modMap : List (String × Nat) :=
  [("LEFT_CTRL", 0x80), ("LEFT_SHIFT", 0x81), ("LEFT_ALT", 0x82),
   ("LEFT_GUI", 0x83), ("RIGHT_CTRL", 0x84), ("RIGHT_SHIFT", 0x85),
   ("RIGHT_ALT", 0x86), ("RIGHT_GUI", 0x87)]

/-- The `mediaMap` table: media name → consumer-page usage code (values from
the external `USBHIDConsumerControl` header). -/
def mediaMap : List (String × Nat) :=
  [("PLAY_PAUSE", 0xCD), ("STOP", 0xB7), ("NEXT", 0xB5), ("PREVIOUS", 0xB6),
   ("MUTE", 0xE2), ("VOLUME_UP", 0xE9), ("VOLUME_DOWN", 0xEA)]

/-- Linear walk shared by the three `*NameTo*` lookups: first
case-insensitive match wins, otherwise 0 (the firmware's sentinel). -/
def lookupName (s : String) : List (String × Nat) → Nat
  | [] => 0
  | (n, c) :: rest => if eqIgnoreCase s n then c else lookupName s rest

/-- `keyNameToHid` (source lines 149-153). -/
def keyNameToHid (s : String) : Nat := lookupName s keyMap

/-- `modifierNameToCode` (source lines 154-158). -/
def modifierNameToCode (s : String) : Nat := lookupName s modMap

/-- `mediaNameToCode` (source lines 159-163). -/
def mediaNameToCode (s : String) : Nat := lookupName s mediaMap

/-- One emitted call to a hardware side-effect interface (HID keyboard,
mouse, consumer control, LED strip, serial log, blocking delay).  The
interpreter and helper routines are embedded as functions producing a
`List Ev` trace. -/
inductive Ev where
  | pressRaw (hid : Nat)
  | releaseRaw (hid : Nat)
  | press (code : Nat)
  | releaseAll
  | print (s : String)
  | write (c : Char)
  | delayEv (ms : Nat)
  | logUnknown (name : String)
  | consumerPress (code : Nat)
  | consumerRelease
  | mouseMoveEv (x y : Int)
  | click (button : Nat)
  | ledAll (r g b : Nat)
  | flash (r g b : Nat) (times onMs offMs : Nat)
  | breathe (r g b : Nat)
  | telephony (usage : Nat)
deriving DecidableEq

/-- `pressKey` (source lines 322-344): empty names are ignored; a name found
in `keyMap` is sent as a raw HID press/release pulse; otherwise a
single-character name is printed as a literal; otherwise the name is logged
as unknown and ignored.  (The debug print on the HID path is not an output
of the HID interface and is not part of the trace.) -/
def pressKey (keyname : String) : List Ev :=
  if keyname.length = 0 then []
  else
    let hid := keyNameToHid keyname
    if hid = 0 then
      if keyname.length = 1 then [Ev.print keyname, Ev.delayEv 25]
      else [Ev.logUnknown keyname]
    else [Ev.pressRaw hid, Ev.delayEv 25, Ev.releaseRaw hid]

/-- `sendText` (source lines 307-319): per-character `Keyboard.write` with a
30 ms pacing delay, then a trailing 20 ms delay. -/
def sendText (text : String) : List Ev :=
  (text.data.map fun c => [Ev.write c, Ev.delayEv 30]).flatten ++ [Ev.delayEv 20]

/-- First loop of `sendKeyCombo` (source lines 349-353): press every entry
that resolves as a modifier, in list order. -/
def comboPhase1 : List String → List Ev
  | [] => []
  | k :: rest =>
      (if modifierNameToCode k ≠ 0 then [Ev.press (modifierNameToCode k)] else [])
        ++ comboPhase1 rest

/-- Second loop of `sendKeyCombo` (source lines 355-359): entries that
resolve as modifiers are skipped, every other entry goes through
`pressKey`. -/
def comboPhase2 : List String → List Ev
  | [] => []
  | k :: rest =>
      (if modifierNameToCode k ≠ 0 then [] else pressKey k) ++ comboPhase2 rest

/-- `sendKeyCombo` (source lines 347-362). -/
def sendKeyCombo (keysArr : List String) : List Ev :=
  comboPhase1 keysArr ++ comboPhase2 keysArr ++ [Ev.delayEv 20, Ev.releaseAll]

/-- `sendMedia` (source lines 363-368). -/
def sendMedia (usage : Nat) : List Ev :=
  if usage = 0 then []
  else [Ev.consumerPress usage, Ev.delayEv 20, Ev.consumerRelease]

/-- `mouseClick` (source lines 370-374). -/
def mouseClick (buttons : Nat) : List Ev :=
  (if buttons &&& 1 ≠ 0 then [Ev.click 0] else [])
    ++ (if buttons &&& 2 ≠ 0 then [Ev.click 1] else [])
    ++ (if buttons &&& 4 ≠ 0 then [Ev.click 2] else [])

/-- `sendTelephony` (source lines 376-385): report with the usage, 10 ms
delay, then a zero (release) report. -/
def sendTelephony (usage : Nat) : List Ev :=
  [Ev.telephony usage, Ev.delayEv 10, Ev.telephony 0]

/-- C++ implicit `int → int8_t` conversion applied at the `mouseMove`
call site (source line 400 calling line 369): reduction modulo 2^8 into
[-128, 127]. -/
def toInt8 (n : Int) : Int := (n + 128) % 256 - 128

/-- `mouseMove` (source line 369): forwards the already-narrowed
displacements to `Mouse.move`. -/
def mouseMove (x y : Int) : List Ev := [Ev.mouseMoveEv x y]

/-- Keys currently held on the HID keyboard after one more emitted call:
`press`/`pressRaw` add a code, `releaseRaw` removes one, `releaseAll`
clears everything; printing/writing single characters is internally
press-and-release and leaves nothing held. -/
def heldStep (held : List Nat) : Ev → List Nat
  | Ev.press c => c :: held
  | Ev.pressRaw h => h :: held
  | Ev.releaseRaw h => held.erase h
  | Ev.releaseAll => []
  | _ => held

/-- Keys held after a whole trace, starting from `init`. -/
def heldAfter (t : List Ev) (init : List Nat) : List Nat :=
  t.foldl heldStep init

/-- Whether a trace contains a literal-character `print` emission. -/
def hasPrintEv (t : List Ev) : Bool :=
  t.any fun e => match e with | Ev.print _ => true | _ => false

/-- One macro step, the `Action` tagged variant of the data model.  Each
constructor carries exactly the fields the corresponding `executeAction`
branch reads (source lines 388-411); an absent/ill-typed JSON field is
already resolved to the branch's `| default` at this level.  A `led` or
`led_anim` whose `color` is not an array carries `none`. -/
inductive Action where
  | comment
  | delayMs (ms : Int)
  | key (value : String)
  | keycombo (keys : List String)
  | text (value : String)
  | hold (key : String)
  | release
  | repeatA (count : Int) (actions : List Action)
  | media (value : String)
  | mouseMoveA (x y : Int)
  | mouseClickA (button : String)
  | led (color : Option (Nat × Nat × Nat))
  | ledAnim (value : String) (color : Option (Nat × Nat × Nat))
  | profile (value : Int)
  | telephonyA (value : String)

/-- A `keys` entry of a profile document: `id` plus the bound action list
(a missing `actions` array is the empty list, which runs as a no-op). -/
structure KeyBinding where
  id : Int
  actions : List Action

/-- The parsed profile document fields the firmware consults:
`profile_name`, `idle_animation`, `default_delay` (absent field falls back
to 30 at each use site via `| 30`), `keys`. -/
structure ProfileDoc where
  profile_name : String
  idle_animation : String
  default_delay : Option Nat
  keys : List KeyBinding

/-- The firmware globals holding the active profile: `currentProfile`
(initially 1), `profileDoc`, `profileLoaded`, `idleAnimation`
(source lines 91-94). -/
structure SysState where
  currentProfile : Int
  profileDoc : ProfileDoc
  profileLoaded : Bool
  idleAnimation : Nat

/-- The LittleFS flash filesystem at its interface: path → file content. -/
def Fs : Type := String → Option String

/-- Create/overwrite a file (LittleFS `open(path, "w")` + write + close). -/
def writeFs (path : String) (content : String) (fs : Fs) : Fs :=
  fun q => if q = path then some content else fs q

/-- `LittleFS.remove`. -/
def removeFs (path : String) (fs : Fs) : Fs :=
  fun q => if q = path then none else fs q

/-- `LittleFS.rename(src, dst)`: moves the file when `src` exists, reporting
success as a Bool. -/
def renameFs (src dst : String) (fs : Fs) : Fs × Bool :=
  match fs src with
  | some c => (removeFs src (writeFs dst c fs), true)
  | none => (fs, false)

/-- `readFileStr` (source lines 165-173): a missing file reads as the empty
string. -/
def readFileStr (fs : Fs) (path : String) : String :=
  (fs path).getD ""

/-- The profile file path `String("/profile") + String(id) + ".json"`. -/
def profilePath (id : Int) : String :=
  "/profile" ++ toString id ++ ".json"

/-- The serialized default document `ensureDefaultProfile` writes
(ArduinoJson serializes the fields in insertion order, without spaces). -/
def defaultProfileJson (id : Int) : String :=
  "\x7b\"profile_name\":\"Profile" ++ toString id ++
    "\",\"idle_animation\":\"none\",\"default_delay\":30,\"keys\":[]\x7d"

/-- `ensureDefaultProfile` (source lines 256-270): for an in-range id whose
backing file is absent, writes the minimal default document. -/
def ensureDefaultProfile (fs : Fs) (id : Int) : Fs :=
  if id < 1 ∨ id > 3 then fs
  else if (fs (profilePath id)).isSome then fs
  else writeFs (profilePath id) (defaultProfileJson id) fs

/-- A cleared `StaticJsonDocument` as observed through the accessors the
firmware uses: every field is absent, so each read site's `| default`
fallback applies (`profile_name` reads as the empty/unnamed value,
`idle_animation` as none, `default_delay` as 30, `keys` as empty). -/
def emptyDoc : ProfileDoc :=
  { profile_name := "", idle_animation := "", default_delay := none, keys := [] }

/-- `loadProfile` (source lines 278-299).  The external JSON capability is
taken at its interface as `parse : String → Option ProfileDoc` (parse
failure = `none`).  Range-checked id; default file synthesized if absent;
an empty read returns `false` before the parser runs, with the globals
untouched.  The source then calls the two-argument
`deserializeJson(profileDoc, s)`, which parses *into the live global
document*, clearing/overwriting the destination before parsing — so on a
parse error the call returns `false` with `currentProfile`,
`profileLoaded` and `idleAnimation` untouched but the previously active
document destroyed (modelled as the cleared document).  On success the
document, loaded flag, id and derived idle-animation mode are replaced. -/
def loadProfile (parse : String → Option ProfileDoc) (fs : Fs) (st : SysState)
    (id : Int) : Fs × SysState × Bool :=
  if id < 1 ∨ id > 3 then (fs, st, false)
  else
    let path := profilePath id
    let fs1 := ensureDefaultProfile fs id
    let s := readFileStr fs1 path
    if s.length = 0 then (fs1, st, false)
    else
      match parse s with
      | none => (fs1, { st with profileDoc := emptyDoc }, false)
      | some doc =>
          (fs1,
           { currentProfile := id
             profileDoc := doc
             profileLoaded := true
             idleAnimation :=
               if doc.idle_animation = "breathe" then 1
               else if doc.idle_animation = "rainbow" then 2
               else 0 },
           true)

/-- `atomicWriteToLittleFS` (source lines 683-707).  `written` is the byte
count actually accepted by the flash write call (`f.write`), an input of the
environment; `now` is `millis()` used for the backup file name.  The payload
is written to `targetPath ++ ".tmp"`; on a short write the temp file is
removed and the call fails; otherwise an existing target is copied to a
timestamped backup, the target is removed and the temp file renamed into
place. -/
def atomicWriteToLittleFS (fs : Fs) (targetPath : String) (data : String)
    (written : Nat) (now : Nat) : Fs × Bool :=
  let tmp := targetPath ++ ".tmp"
  let fs1 := writeFs tmp (strTake data written) fs
  if written ≠ data.length then
    (removeFs tmp fs1, false)
  else
    let fs2 :=
      match fs1 targetPath with
      | some old =>
          writeFs ("/backups/" ++ strDrop targetPath 1 ++ "-" ++ toString now ++ ".bak")
            old fs1
      | none => fs1
    let fs3 := removeFs targetPath fs2
    renameFs tmp targetPath fs3

/-- The inter-action pacing delay `profileDoc["default_delay"] | 30`, read
from the live document at each use site. -/
def ddOf (st : SysState) : Nat := st.profileDoc.default_delay.getD 30

/-- The `repeat` branch's count handling (source line 398):
`int count = act["count"] | 1; if (count < 1) count = 1;
if (count > MAX_REPEAT_COUNT) count = MAX_REPEAT_COUNT;`. -/
def sourceCount (c : Int) : Nat :=
  let c1 : Int := if c < 1 then 1 else c
  let c2 : Int := if c1 > 50 then 50 else c1
  c2.toNat

mutual

/-- `executeAction` (source lines 388-411), dispatch by the action tag.
State is `(Fs, SysState)` (the `profile` branch runs `loadProfile`); the
second component is the emitted side-effect trace. -/
def execAction (parse : String → Option ProfileDoc) :
    Fs × SysState → Action → (Fs × SysState) × List Ev
  | s, .comment => (s, [])
  | s, .delayMs ms => (s, if ms > 0 then [Ev.delayEv ms.toNat] else [])
  | s, .key v => (s, pressKey v ++ [Ev.delayEv (ddOf s.2)])
  | s, .keycombo keys => (s, sendKeyCombo keys ++ [Ev.delayEv (ddOf s.2)])
  | s, .text v =>
      (s, sendText (if v.length > 4096 then strTake v 4096 else v)
            ++ [Ev.delayEv (ddOf s.2)])
  | s, .hold k =>
      (s,
       if modifierNameToCode k ≠ 0 then [Ev.press (modifierNameToCode k)]
       else if keyNameToHid k ≠ 0 then [Ev.press (keyNameToHid k)]
       else [])
  | s, .release => (s, [Ev.releaseAll])
  | s, .repeatA c acts => runActsN parse (sourceCount c) s acts
  | s, .media v =>
      (s, if mediaNameToCode v ≠ 0 then sendMedia (mediaNameToCode v) else [])
  | s, .mouseMoveA x y => (s, mouseMove (toInt8 x) (toInt8 y))
  | s, .mouseClickA b =>
      (s, mouseClick
            (if eqIgnoreCase b "RIGHT" then 2
             else if eqIgnoreCase b "MIDDLE" then 4 else 1))
  | s, .led color =>
      (s, match color with
          | some (r, g, b) => [Ev.ledAll r g b]
          | none => [])
  | s, .ledAnim v color =>
      (s,
       if eqIgnoreCase v "flash" then
         match color with
         | some (r, g, b) => [Ev.flash r g b 2 120 80]
         | none => [Ev.flash 255 255 255 2 120 80]
       else if eqIgnoreCase v "breathe" then
         match color with
         | some (r, g, b) => [Ev.breathe r g b]
         | none => [Ev.breathe 255 255 255]
       else [])
  | s, .profile v =>
      let p : Int := if v < 1 then 1 else if v > 3 then 3 else v
      let r := loadProfile parse s.1 s.2 p
      ((r.1, r.2.1), [])
  | s, .telephonyA v =>
      (s, if eqIgnoreCase v "MIC_MUTE" then sendTelephony 0x2F else [])
termination_by s a => (sizeOf a, 0)

/-- The `for (int i = 0; i < count; i++) runActions(...)` loop of the
`repeat` branch: run the nested list `n` times, threading state. -/
def runActsN (parse : String → Option ProfileDoc) :
    Nat → Fs × SysState → List Action → (Fs × SysState) × List Ev
  | 0, s, _ => (s, [])
  | n + 1, s, acts =>
      let r1 := runActs parse s acts
      let r2 := runActsN parse n r1.1 acts
      (r2.1, r1.2 ++ r2.2)
termination_by n s acts => (sizeOf acts, n + 1)

/-- `runActions` (source lines 413-420): execute each action, then block
for the live document's `default_delay`. -/
def runActs (parse : String → Option ProfileDoc) :
    Fs × SysState → List Action → (Fs × SysState) × List Ev
  | s, [] => (s, [])
  | s, a :: rest =>
      let r1 := execAction parse s a
      let r2 := runActs parse r1.1 rest
      (r2.1, r1.2 ++ [Ev.delayEv (ddOf r1.1.2)] ++ r2.2)
termination_by s acts => (sizeOf acts, 0)

end

/-- `runMacroForKey` (source lines 422-438): with a loaded profile, the
first `keys` entry whose `id` matches runs its bound action list.  (The
`macroRunning` flag only guards re-entry inside one cooperative tick and
is false again when the call returns; it is not part of the state.) -/
def runMacroForKey (parse : String → Option ProfileDoc)
    (s : Fs × SysState) (keyId : Int) : Fs × SysState :=
  if ¬s.2.profileLoaded then s
  else
    match s.2.profileDoc.keys.find? (fun kb => kb.id == keyId) with
    | some kb => (runActs parse s kb.actions).1
    | none => s

/-- The serial upload globals `serialRecording` / `serialBuffer` /
`serialTargetFile` (source lines 103-105). -/
structure SerialSt where
  recording : Bool
  buffer : String
  targetFile : String

/-- The touch-gesture statics of `scanTouchProfileSwitch`: `lastA`, `lastB`,
`touchLastDebounceA/B` (fire timestamps), `bothStart`. -/
structure TouchSt where
  lastA : Bool
  lastB : Bool
  fireA : Nat
  fireB : Nat
  bothStart : Nat

/-- The whole-device state the main loop owns. -/
structure Machine where
  fs : Fs
  sys : SysState
  ser : SerialSt
  touch : TouchSt

/-- Arduino `String::toLowerCase` (ASCII). -/
def toLowerStr (s : String) : String := ⟨s.data.map lcChar⟩

/-- The verb/argument split of `cliHandleLine`: `indexOf(' ')`, verb before
the first space, argument after it, trimmed. -/
def splitCmd (s : String) : String × String :=
  let i := s.data.findIdx (fun c => c = ' ')
  if i = s.data.length then (s, "")
  else (⟨s.data.take i⟩, strTrim ⟨s.data.drop (i + 1)⟩)

/-- Arduino `String::toInt` at its interface (integer value of the
argument, 0 when it does not parse; the guard in `setprofile` makes the
difference to leading-prefix parsing immaterial here). -/
def argToInt (s : String) : Int := s.toInt?.getD 0

/-- `cliHandleLine` (source lines 550-577).  `help`/`ls`/`cat`/`status` and
unknown verbs only print; `setprofile <n>` rejects an out-of-range id and
otherwise runs `loadProfile`; `reboot` restarts the device (the post-restart
state is a boot state, covered separately). -/
def cliHandleLine (parse : String → Option ProfileDoc) (m : Machine)
    (line : String) : Machine :=
  let s := strTrim line
  if s.length = 0 then m
  else
    let cmd := toLowerStr (splitCmd s).1
    let arg := (splitCmd s).2
    if cmd = "help" then m
    else if cmd = "ls" then m
    else if cmd = "cat" then m
    else if cmd = "setprofile" then
      let id := argToInt arg
      if id < 1 ∨ id > 3 then m
      else
        let r := loadProfile parse m.fs m.sys id
        { m with fs := r.1, sys := r.2.1 }
    else if cmd = "status" then m
    else if cmd = "reboot" then m
    else m

/-- One line of `handleSerialInput` (source lines 579-624): the BEGIN/END
upload protocol over the CLI.  `written` is the byte count the flash write
accepts when a document is committed; `now` is `millis()`. -/
def handleLine (parse : String → Option ProfileDoc) (m : Machine)
    (rawLine : String) (now written : Nat) : Machine :=
  let line := strTrim rawLine
  if ¬m.ser.recording then
    if strStartsWith line "###BEGIN###" then
      let target := strTrim (strDrop line 11)
      if target.length > 0 then
        { m with ser := { recording := true, buffer := "", targetFile := "/" ++ target } }
      else m
    else if line.length > 0 then cliHandleLine parse m line
    else m
  else if line = "###END###" then
    if m.ser.targetFile.length > 0 then
      let r := atomicWriteToLittleFS m.fs m.ser.targetFile m.ser.buffer written now
      { m with fs := r.1,
               ser := { recording := false, buffer := "", targetFile := "" } }
    else
      { m with ser := { recording := false, buffer := "", targetFile := "" } }
  else
    { m with ser := { m.ser with buffer := m.ser.buffer ++ line ++ "\n" } }

/-- `touchPressed` (source lines 467-478): the average of the four rapid
samples must exceed the boot baseline by more than the hardcoded deviation
threshold 300. -/
def touchPressed (reads : List Int) (base : Int) : Bool :=
  let v := reads.sum / 4
  (v - base) > 300

/-- Next-profile wrap of pad A:
`np = currentProfile + 1; if (np > NUM_PROFILES) np = 1`. -/
def wrapNext (cp : Int) : Int := if cp + 1 > 3 then 1 else cp + 1

/-- Previous-profile wrap of pad B:
`np = currentProfile - 1; if (np < 1) np = NUM_PROFILES`. -/
def wrapPrev (cp : Int) : Int := if cp - 1 < 1 then 3 else cp - 1

/-- `scanTouchProfileSwitch` (source lines 482-522), one tick.  `readsA` /
`readsB` are the raw sample sets, `baseA` / `baseB` the boot baselines,
`now` is `millis()`.  A rising edge on a pad fires its gesture only when
more than 300 ms have passed since that pad's last fire; holding both pads
past 3000 ms clears the loaded flag.  The acknowledgment LED flashes only
drive the strip and are elided from the state. -/
def scanTouchTick (parse : String → Option ProfileDoc) (m : Machine)
    (readsA readsB : List Int) (baseA baseB : Int) (now : Nat) : Machine :=
  let a := touchPressed readsA baseA
  let b := touchPressed readsB baseB
  let t := m.touch
  let ra :=
    if a ∧ ¬t.lastA ∧ now - t.fireA > 300 then
      let r := loadProfile parse m.fs m.sys (wrapNext m.sys.currentProfile)
      (r.1, r.2.1, now)
    else (m.fs, m.sys, t.fireA)
  let rb :=
    if b ∧ ¬t.lastB ∧ now - t.fireB > 300 then
      let r := loadProfile parse ra.1 ra.2.1 (wrapPrev ra.2.1.currentProfile)
      (r.1, r.2.1, now)
    else ra
  let rc :=
    if a ∧ b then
      let bs0 := if t.bothStart = 0 then now else t.bothStart
      if now - bs0 > 3000 then ({ rb.2.1 with profileLoaded := false }, 0)
      else (rb.2.1, bs0)
    else (rb.2.1, 0)
  { fs := rb.1, sys := rc.1, ser := m.ser,
    touch := { lastA := a, lastB := b, fireA := ra.2.2, fireB := rb.2.2,
               bothStart := rc.2 } }

/-- One key's debounce state (`keyState[i]`, `keyLastChange[i]`). -/
structure DebSt where
  keyState : Bool
  lastChange : Nat

/-- The per-key body of `scanKeys` (source lines 524-543): the raw level is
committed, and an edge emitted, exactly when it differs from the committed
level and more than `DEFAULT_DEBOUNCE_MS = 50` ms have passed since the
last commit.  The emitted value is the new level (`true` = Pressed). -/
def scanStep (st : DebSt) (raw : Bool) (now : Nat) : DebSt × Option Bool :=
  if raw ≠ st.keyState ∧ now - st.lastChange > 50 then
    ({ keyState := raw, lastChange := now }, some raw)
  else (st, none)

/-- Iterated `scanStep` over a sequence of `(millis, raw level)` samples,
collecting the emitted edges. -/
def runScan (st : DebSt) : List (Nat × Bool) → DebSt × List Bool
  | [] => (st, [])
  | (now, raw) :: rest =>
      let r := scanStep st raw now
      let r2 := runScan r.1 rest
      (r2.1, (match r.2 with | some e => [e] | none => []) ++ r2.2)

/-- The globals at C++ static initialization: `currentProfile = 1`, empty
document, `profileLoaded = false`, `idleAnimation = 0`. -/
def initSys : SysState :=
  { currentProfile := 1
    profileDoc := { profile_name := "", idle_animation := "",
                    default_delay := none, keys := [] }
    profileLoaded := false
    idleAnimation := 0 }

/-- `setup()` (source lines 627-667): default profile files are synthesized
for ids 1..3 if absent, then `loadProfile(1)` runs. -/
def bootMachine (parse : String → Option ProfileDoc) (fs0 : Fs) : Machine :=
  let fs1 := ensureDefaultProfile (ensureDefaultProfile (ensureDefaultProfile fs0 1) 2) 3
  let r := loadProfile parse fs1 initSys 1
  { fs := r.1, sys := r.2.1
    ser := { recording := false, buffer := "", targetFile := "" }
    touch := { lastA := false, lastB := false, fireA := 0, fireB := 0, bothStart := 0 } }

/-- A committed press edge in `scanKeys` dispatching the bound macro
(source line 534: `if (!macroRunning && profileLoaded) runMacroForKey(i+1)`). -/
def keyMacroStep (parse : String → Option ProfileDoc) (m : Machine)
    (keyId : Int) : Machine :=
  let r := runMacroForKey parse (m.fs, m.sys) keyId
  { m with fs := r.1, sys := r.2 }

/-- The states the cooperative main loop can reach: a boot state, or any
reachable state advanced by a serial line, a touch-gesture tick, or a
key-press macro dispatch. -/
inductive Reachable (parse : String → Option ProfileDoc) : Machine → Prop where
  | boot (fs0 : Fs) : Reachable parse (bootMachine parse fs0)
  | serial {m : Machine} (line : String) (now written : Nat) :
      Reachable parse m → Reachable parse (handleLine parse m line now written)
  | touchStep {m : Machine} (readsA readsB : List Int) (baseA baseB : Int) (now : Nat) :
      Reachable parse m →
      Reachable parse (scanTouchTick parse m readsA readsB baseA baseB now)
  | keyEdge {m : Machine} (keyId : Int) :
      Reachable parse m → Reachable parse (keyMacroStep parse m keyId)

/-! Helper lemmas -/

theorem sourceCount_eq_clamp (c : Int) : sourceCount c = (max 1 (min 50 c)).toNat := by
  simp only [sourceCount]
  split_ifs <;> omega

theorem runActs_release_eq (parse : String → Option ProfileDoc) (s : Fs × SysState) :
    runActs parse s [Action.release] = (s, [Ev.releaseAll, Ev.delayEv (ddOf s.2)]) := by
  simp [runActs, execAction]

theorem runActsN_release_count (parse : String → Option ProfileDoc)
    (s : Fs × SysState) (n : Nat) :
    ((runActsN parse n s [Action.release]).2).count Ev.releaseAll = n := by
  induction n with
  | zero => simp [runActsN]
  | succ k ih =>
      simp [runActsN, runActs_release_eq, List.count_append, ih]

theorem string_ne_append_tmp (t : String) : t ≠ t ++ ".tmp" := by
  intro h
  have hl : t.length = (t ++ ".tmp").length := by rw [← h]
  rw [String.length_append] at hl
  have : (".tmp" : String).length = 4 := by decide
  omega

/-! Claim C10 -/

/-- C10: the `mouse_move` branch passes the profile's `dx`/`dy` through the
C++ `int → int8_t` conversion before they reach `Mouse.move`: the emitted
displacements are the inputs reduced modulo 2^8 into [-128, 127], so an
out-of-range displacement wraps (e.g. 300 becomes 44 and -200 becomes 56)
rather than saturating or being rejected. -/
theorem mouse_move_truncates_mod_256 (parse : String → Option ProfileDoc)
    (s : Fs × SysState) (x y : Int) :
    execAction parse s (Action.mouseMoveA x y)
        = (s, [Ev.mouseMoveEv (toInt8 x) (toInt8 y)])
    ∧ (∀ n : Int, -128 ≤ toInt8 n ∧ toInt8 n ≤ 127 ∧ (256 : Int) ∣ (toInt8 n - n))
    ∧ toInt8 300 = 44 ∧ toInt8 (-200) = 56 := by
  refine ⟨by simp [execAction, mouseMove], ?_, by decide, by decide⟩
  intro n
  have h0 : (0 : Int) ≤ (n + 128) % 256 := Int.emod_nonneg _ (by norm_num)
  have h1 : (n + 128) % 256 < 256 := Int.emod_lt_of_pos _ (by norm_num)
  refine ⟨by simp only [toInt8]; omega, by simp only [toInt8]; omega, ?_⟩
  refine ⟨-((n + 128) / 256), ?_⟩
  have hdef : (n + 128) % 256 = (n + 128) - 256 * ((n + 128) / 256) :=
    Int.emod_def (n + 128) 256
  simp only [toInt8]
  rw [hdef]
  ring

/-! Claim C8 -/

/-- C8: a `repeat` action runs its nested action list exactly the requested
count clamped to [1, MAX_REPEAT_COUNT = 50] times: the executed repetition
count (observed here as the number of emitted release-all calls when the
nested list is a single `release` action) is `max 1 (min 50 count)`, so a
count above 50 runs 50 times and a count below 1 runs once; in general the
`repeat` branch is the clamped-count iteration of the nested list. -/
theorem repeat_count_clamped (parse : String → Option ProfileDoc)
    (s : Fs × SysState) (c : Int) :
    ((execAction parse s (Action.repeatA c [Action.release])).2).count Ev.releaseAll
        = (max 1 (min 50 c)).toNat
    ∧ (∀ acts : List Action,
        execAction parse s (Action.repeatA c acts)
          = runActsN parse ((max 1 (min 50 c)).toNat) s acts) := by
  have he : ∀ acts : List Action,
      execAction parse s (Action.repeatA c acts)
        = runActsN parse (sourceCount c) s acts := by
    intro acts; simp [execAction]
  refine ⟨?_, fun acts => by rw [he acts, sourceCount_eq_clamp]⟩
  rw [he, sourceCount_eq_clamp, runActsN_release_count]

/-! Claim C4 -/

/-- C4: when `atomicWriteToLittleFS` suffers a short write (the byte count
accepted by the temp-file write differs from the payload length), it aborts:
it returns failure, the target path's content is byte-for-byte the old one,
and no file remains at the temporary sibling path. -/
theorem atomicWrite_short_write_aborts (fs : Fs) (target data : String)
    (written now : Nat) (h : written ≠ data.length) :
    (atomicWriteToLittleFS fs target data written now).2 = false
    ∧ (atomicWriteToLittleFS fs target data written now).1 target = fs target
    ∧ (atomicWriteToLittleFS fs target data written now).1 (target ++ ".tmp") = none := by
  have hne : target ≠ target ++ ".tmp" := string_ne_append_tmp target
  simp [atomicWriteToLittleFS, h, removeFs, writeFs, hne]

/-- A concrete one-file filesystem for exercising the persistence layer. -/
def cFs4 : Fs := fun p => if p = "/profile1.json" then some "OLD" else none

/-- Witness for C4 at a concrete filesystem: a 3-byte write of a 10-byte
payload fails, leaves `/profile1.json` untouched and no temp file. -/
theorem atomicWrite_short_write_aborts_inst :
    (3 ≠ "NEWCONTENT".length)
    ∧ ((atomicWriteToLittleFS cFs4 "/profile1.json" "NEWCONTENT" 3 99).2 = false
       ∧ (atomicWriteToLittleFS cFs4 "/profile1.json" "NEWCONTENT" 3 99).1 "/profile1.json"
           = cFs4 "/profile1.json"
       ∧ (atomicWriteToLittleFS cFs4 "/profile1.json" "NEWCONTENT" 3 99).1
           ("/profile1.json" ++ ".tmp") = none) :=
  ⟨by decide, atomicWrite_short_write_aborts cFs4 "/profile1.json" "NEWCONTENT" 3 99 (by decide)⟩

/-! Claim C7 -/

/-- C7 counterexample: the key name "A" is a printable single character,
yet `pressKey` emits no literal-character print for it — the `keyMap`
lookup happens first, so "A" goes out as a raw HID pulse (usage 0x04).
This falsifies the claim that a name resolving to a printable single
character is emitted as a literal character. -/
theorem printable_key_name_raw_pulse_cex :
    "A".length = 1 ∧ hasPrintEv (pressKey "A") = false
    ∧ pressKey "A" = [Ev.pressRaw 4, Ev.delayEv 25, Ev.releaseRaw 4] := by
  refine ⟨by decide, by decide, by decide⟩

theorem keyNameToHid_empty : keyNameToHid "" = 0 := by decide

/-- C7 (amended): the `keyMap` lookup takes priority — a name found in the
HID table is emitted as a raw press-then-release pulse that leaves nothing
held (even when the name is a printable single character such as "A"); only
a single-character name *not* in the table is emitted as a literal
character; longer unresolved names are logged and ignored; empty names are
ignored silently. -/
theorem pressKey_dispatch_priority (k : String) :
    (keyNameToHid k ≠ 0 →
      pressKey k = [Ev.pressRaw (keyNameToHid k), Ev.delayEv 25,
                    Ev.releaseRaw (keyNameToHid k)]
      ∧ heldAfter (pressKey k) [] = [])
    ∧ (keyNameToHid k = 0 → k.length = 1 → pressKey k = [Ev.print k, Ev.delayEv 25])
    ∧ (keyNameToHid k = 0 → 2 ≤ k.length → pressKey k = [Ev.logUnknown k])
    ∧ (k.length = 0 → pressKey k = []) := by
  refine ⟨?_, ?_, ?_, ?_⟩
  · intro h
    have hne : ¬ k.length = 0 := by
      intro h0
      have hk : k = "" := by
        cases k with
        | mk data => simp [String.length] at h0; simp [h0]
      rw [hk] at h
      exact h keyNameToHid_empty
    constructor
    · simp [pressKey, hne, h]
    · simp [pressKey, hne, h, heldAfter, heldStep]
  · intro h h1
    simp [pressKey, h, h1]
  · intro h h2
    have hne : ¬ k.length = 0 := by omega
    have hne1 : ¬ k.length = 1 := by omega
    simp [pressKey, h, hne, hne1]
  · intro h0
    simp [pressKey, h0]

/-- Witness for C7's amended theorem: "F5" resolves in the table and is
emitted as a raw pulse of usage 0x3E. -/
theorem pressKey_dispatch_priority_inst :
    keyNameToHid "F5" ≠ 0
    ∧ (pressKey "F5" = [Ev.pressRaw (keyNameToHid "F5"), Ev.delayEv 25,
                        Ev.releaseRaw (keyNameToHid "F5")]
       ∧ heldAfter (pressKey "F5") [] = []) :=
  ⟨by decide, (pressKey_dispatch_priority "F5").1 (by decide)⟩

/-! Claim C5 -/

theorem comboPhase1_eq (keys : List String) :
    comboPhase1 keys
      = (keys.filter fun k => modifierNameToCode k != 0).map
          (fun k => Ev.press (modifierNameToCode k)) := by
  induction keys with
  | nil => rfl
  | cons k r ih =>
      by_cases h : modifierNameToCode k = 0
      · simp [comboPhase1, List.filter_cons, h, ih]
      · simp [comboPhase1, List.filter_cons, h, ih]

theorem pressKey_events (k : String) :
    ∀ e ∈ pressKey k, (∀ c, e ≠ Ev.press c) ∧ e ≠ Ev.releaseAll := by
  intro e he
  by_cases h0 : k.length = 0
  · simp [pressKey, h0] at he
  · by_cases h1 : keyNameToHid k = 0
    · by_cases h2 : k.length = 1
      · simp [pressKey, h0, h1, h2] at he
        rcases he with h | h <;> subst h <;> exact ⟨fun c => by simp, by simp⟩
      · simp [pressKey, h0, h1, h2] at he
        subst he
        exact ⟨fun c => by simp, by simp⟩
    · simp [pressKey, h0, h1] at he
      rcases he with h | h | h <;> subst h <;> exact ⟨fun c => by simp, by simp⟩

theorem comboPhase2_events (keys : List String) :
    ∀ e ∈ comboPhase2 keys, (∀ c, e ≠ Ev.press c) ∧ e ≠ Ev.releaseAll := by
  induction keys with
  | nil => intro e he; simp [comboPhase2] at he
  | cons k r ih =>
      intro e he
      simp only [comboPhase2, List.mem_append] at he
      rcases he with he | he
      · by_cases h : modifierNameToCode k = 0
        · exact pressKey_events k e (by simpa [h] using he)
        · simp [h] at he
      · exact ih e he

theorem comboPhase2_pressRaw_mem (keys : List String) :
    ∀ k ∈ keys, modifierNameToCode k = 0 → keyNameToHid k ≠ 0 →
      Ev.pressRaw (keyNameToHid k) ∈ comboPhase2 keys := by
  induction keys with
  | nil => intro k hk; simp at hk
  | cons a r ih =>
      intro k hk hm hh
      simp only [List.mem_cons] at hk
      rcases hk with rfl | hk
      · simp only [comboPhase2, List.mem_append]
        left
        have hne : ¬ k.length = 0 := by
          intro h0
          have hkk : k = "" := by
            cases k with
            | mk d => simp [String.length] at h0; simp [h0]
          rw [hkk] at hh
          exact hh keyNameToHid_empty
        simp [hm, pressKey, hne, hh]
      · simp only [comboPhase2, List.mem_append]
        right
        exact ih k hk hm hh

theorem comboPhase1_count_releaseAll (keys : List String) :
    (comboPhase1 keys).count Ev.releaseAll = 0 := by
  rw [comboPhase1_eq, List.count_eq_zero]
  simp [List.mem_map]

theorem comboPhase2_count_releaseAll (keys : List String) :
    (comboPhase2 keys).count Ev.releaseAll = 0 := by
  rw [List.count_eq_zero]
  intro hmem
  exact (comboPhase2_events keys _ hmem).2 rfl

/-- C5: `sendKeyCombo` is two-phase — the trace is exactly the modifier
presses of the resolved modifiers in list order, then the non-modifier
traces (which contain every table-resolved non-modifier's press and no
modifier press or release-all), then one terminal release-all; the
release-all occurs exactly once and the trace leaves no key held,
independently of where the non-modifier entries sit in the source list. -/
theorem keycombo_two_phase (keys : List String) :
    sendKeyCombo keys
      = ((keys.filter fun k => modifierNameToCode k != 0).map
            (fun k => Ev.press (modifierNameToCode k)))
          ++ comboPhase2 keys ++ [Ev.delayEv 20, Ev.releaseAll]
    ∧ (∀ k ∈ keys, modifierNameToCode k = 0 → keyNameToHid k ≠ 0 →
        Ev.pressRaw (keyNameToHid k) ∈ comboPhase2 keys)
    ∧ (∀ e ∈ comboPhase2 keys, (∀ c, e ≠ Ev.press c) ∧ e ≠ Ev.releaseAll)
    ∧ (sendKeyCombo keys).count Ev.releaseAll = 1
    ∧ (∀ init : List Nat, heldAfter (sendKeyCombo keys) init = []) := by
  refine ⟨?_, comboPhase2_pressRaw_mem keys, comboPhase2_events keys, ?_, ?_⟩
  · simp [sendKeyCombo, comboPhase1_eq]
  · simp [sendKeyCombo, List.count_append, comboPhase1_count_releaseAll,
      comboPhase2_count_releaseAll]
  · intro init
    simp [heldAfter, sendKeyCombo, List.foldl_append, heldStep]

/-- Witness for C5 at the spec's own example `["LEFT_CTRL","LEFT_SHIFT","R"]`:
the letter's raw press sits in the non-modifier phase, the trace ends with
a single release-all and leaves nothing held. -/
theorem keycombo_two_phase_inst :
    Ev.pressRaw (keyNameToHid "R") ∈ comboPhase2 ["LEFT_CTRL", "LEFT_SHIFT", "R"]
    ∧ heldAfter (sendKeyCombo ["LEFT_CTRL", "LEFT_SHIFT", "R"]) [] = []
    ∧ (sendKeyCombo ["LEFT_CTRL", "LEFT_SHIFT", "R"]).count Ev.releaseAll = 1 := by
  have h := keycombo_two_phase ["LEFT_CTRL", "LEFT_SHIFT", "R"]
  exact ⟨h.2.1 "R" (by simp) (by decide) (by decide), h.2.2.2.2 [], h.2.2.2.1⟩

/-! Claim C3 -/

/-- C3 counterexample: a raw glitch held for only 8 ms (high at t=1000,
back low by t=1008, far shorter than DEBOUNCE_MS = 50) nevertheless emits
edges — a Pressed edge immediately at t=1000 and a Released edge at
t=1051 — because the window test compares against the last *commit* time,
not against the start of the raw change.  This falsifies the claim that a
level change not held for DEBOUNCE_MS produces no emitted edge (and that
the stable level commits only after a full stable window). -/
theorem short_glitch_emits_edges_cex :
    1008 - 1000 ≤ 50
    ∧ (runScan { keyState := false, lastChange := 0 }
        [(1000, true), (1008, false), (1051, false)]).2 = [true, false] :=
  ⟨by decide, by decide⟩

theorem runScan_stable_no_edges (st : DebSt) (r : Bool) (h : st.keyState = r) :
    ∀ ts : List Nat, (runScan st (ts.map fun t => (t, r))).2 = [] := by
  intro ts
  induction ts with
  | nil => simp [runScan]
  | cons t rest ih =>
      simp only [List.map_cons, runScan, scanStep, h]
      simp [ih]

/-- C3 (amended): the per-key scanner is a rate limiter, not a stability
filter — an edge is emitted exactly when the raw sample differs from the
committed level and more than DEBOUNCE_MS = 50 ms have passed since the
last committed change; under a raw level held constantly different from
the committed one, exactly one edge is emitted as soon as some sample
falls outside the 50 ms window (a change held past the window still yields
exactly one edge, but a shorter glitch arriving more than 50 ms after the
last commit also commits immediately, as the counterexample shows). -/
theorem debounce_rate_limit (st : DebSt) (raw : Bool) (now : Nat) :
    ((scanStep st raw now).2.isSome ↔ (raw ≠ st.keyState ∧ st.lastChange + 50 < now))
    ∧ (∀ (ts : List Nat) (r : Bool), r ≠ st.keyState →
        (∃ t ∈ ts, st.lastChange + 50 < t) →
        (runScan st (ts.map fun t => (t, r))).2.length = 1) := by
  constructor
  · unfold scanStep
    split_ifs with h
    · simp only [Option.isSome_some, true_iff]
      exact ⟨h.1, by omega⟩
    · simp only [Option.isSome_none, Bool.false_eq_true, false_iff]
      intro hc
      exact h ⟨hc.1, by omega⟩
  · intro ts r hr hex
    induction ts with
    | nil => simp at hex
    | cons t rest ih =>
        by_cases hw : st.lastChange + 50 < t
        · have hc : (scanStep st r t) = ({ keyState := r, lastChange := t }, some r) := by
            unfold scanStep
            rw [if_pos ⟨hr, by omega⟩]
          simp only [List.map_cons, runScan, hc]
          simp [runScan_stable_no_edges { keyState := r, lastChange := t } r rfl rest]
        · have hc : (scanStep st r t) = (st, none) := by
            unfold scanStep
            rw [if_neg]
            intro hh
            exact hw (by omega)
          simp only [List.map_cons, runScan, hc]
          simp only [List.nil_append]
          apply ih
          rcases hex with ⟨t0, ht0, hgt⟩
          rcases List.mem_cons.mp ht0 with rfl | hmem
          · exact absurd hgt hw
          · exact ⟨t0, hmem, hgt⟩

/-- Witness for C3's amended theorem: from the released state at time 0, a
press sample at t=100 (window elapsed) emits exactly one edge, and the
step characterization holds there. -/
theorem debounce_rate_limit_inst :
    ((scanStep { keyState := false, lastChange := 0 } true 100).2.isSome
        ↔ (true ≠ ({ keyState := false, lastChange := 0 } : DebSt).keyState
            ∧ ({ keyState := false, lastChange := 0 } : DebSt).lastChange + 50 < 100))
    ∧ (runScan { keyState := false, lastChange := 0 }
        ([100].map fun t => (t, true))).2.length = 1 := by
  have h := debounce_rate_limit { keyState := false, lastChange := 0 } true 100
  exact ⟨h.1, h.2 [100] true (by decide) ⟨100, by simp, by decide⟩⟩

/-! Claim C6 -/

/-- C6 counterexample: with boot baseline B = 1000 and the fixed deviation
threshold T = 300, an averaged reading of 600 has crossed below B - T = 700,
yet `touchPressed` reports the pad as *not* active — the code activates only
when the reading *exceeds* the baseline by more than the threshold
(`v - base > 300`), the opposite crossing direction from the claim. -/
theorem touch_below_baseline_not_active_cex :
    ((600 : Int) < 1000 - 300)
    ∧ touchPressed [600, 600, 600, 600] 1000 = false
    ∧ touchPressed [1400, 1400, 1400, 1400] 1000 = true :=
  ⟨by decide, by decide, by decide⟩

/-- C6 (amended): a pad is active exactly when its averaged reading exceeds
the boot baseline by more than the fixed threshold 300 (`v > B + 300`, not
a crossing below `B - T`); on a tick, a pad already active last tick never
re-fires; a rising edge within the 300 ms cooldown of that pad's last fire
is suppressed (so two edges inside the cooldown collapse to one profile
change); and a rising edge past the cooldown fires exactly one
`loadProfile` of the wrapped next profile and stamps the pad's fire time.
(The other pad is held inactive to isolate pad A's gesture.) -/
theorem touch_gesture_threshold_and_cooldown
    (parse : String → Option ProfileDoc) (m : Machine)
    (readsA readsB : List Int) (baseA baseB : Int) (now : Nat) :
    (touchPressed readsA baseA = true ↔ baseA + 300 < readsA.sum / 4)
    ∧ (m.touch.lastA = true → touchPressed readsB baseB = false →
        (scanTouchTick parse m readsA readsB baseA baseB now).sys = m.sys
        ∧ (scanTouchTick parse m readsA readsB baseA baseB now).touch.fireA
            = m.touch.fireA)
    ∧ (m.touch.lastA = false → touchPressed readsA baseA = true →
        touchPressed readsB baseB = false → now - m.touch.fireA ≤ 300 →
        (scanTouchTick parse m readsA readsB baseA baseB now).sys = m.sys
        ∧ (scanTouchTick parse m readsA readsB baseA baseB now).touch.fireA
            = m.touch.fireA)
    ∧ (m.touch.lastA = false → touchPressed readsA baseA = true →
        touchPressed readsB baseB = false → now - m.touch.fireA > 300 →
        (scanTouchTick parse m readsA readsB baseA baseB now).sys
            = (loadProfile parse m.fs m.sys (wrapNext m.sys.currentProfile)).2.1
        ∧ (scanTouchTick parse m readsA readsB baseA baseB now).touch.fireA = now) := by
  refine ⟨?_, ?_, ?_, ?_⟩
  · simp only [touchPressed, decide_eq_true_eq]
    omega
  · intro hlast hb
    simp [scanTouchTick, hlast, hb]
  · intro hlast ha hb hcool
    have hw : ¬ now - m.touch.fireA > 300 := by omega
    simp [scanTouchTick, hlast, ha, hb, hw]
  · intro hlast ha hb hcool
    simp [scanTouchTick, hlast, ha, hb, hcool]

/-- A parse capability returning a fixed well-formed document, for
exercising a successful gesture-triggered reload. -/
def cParse6 : String → Option ProfileDoc :=
  fun _ => some { profile_name := "P", idle_animation := "none",
                  default_delay := some 30, keys := [] }

/-- A machine on profile 1 with both pads idle and cold fire timers. -/
def cM6 : Machine :=
  { fs := fun p => if p = "/profile2.json" then some "x" else none
    sys := { currentProfile := 1
             profileDoc := { profile_name := "Old", idle_animation := "none",
                             default_delay := some 30, keys := [] }
             profileLoaded := true, idleAnimation := 0 }
    ser := { recording := false, buffer := "", targetFile := "" }
    touch := { lastA := false, lastB := false, fireA := 0, fireB := 0, bothStart := 0 } }

/-- Witness for C6's amended theorem: a rising edge of pad A past the
cooldown at t=1000 loads the wrapped next profile and stamps the fire
time. -/
theorem touch_gesture_threshold_and_cooldown_inst :
    cM6.touch.lastA = false
    ∧ touchPressed [1400, 1400, 1400, 1400] 1000 = true
    ∧ touchPressed [0, 0, 0, 0] 1000 = false
    ∧ 1000 - cM6.touch.fireA > 300
    ∧ ((scanTouchTick cParse6 cM6 [1400, 1400, 1400, 1400] [0, 0, 0, 0] 1000 1000 1000).sys
        = (loadProfile cParse6 cM6.fs cM6.sys (wrapNext cM6.sys.currentProfile)).2.1
       ∧ (scanTouchTick cParse6 cM6 [1400, 1400, 1400, 1400] [0, 0, 0, 0] 1000 1000 1000).touch.fireA
        = 1000) :=
  ⟨rfl, by decide, by decide, by decide,
   (touch_gesture_threshold_and_cooldown cParse6 cM6 [1400, 1400, 1400, 1400]
      [0, 0, 0, 0] 1000 1000 1000).2.2.2 rfl (by decide) (by decide) (by decide)⟩

/-! Claim C1 -/

/-- A parse capability that always fails. -/
def cParseNone : String → Option ProfileDoc := fun _ => none

/-- A filesystem holding malformed profile-1 contents. -/
def cFs1 : Fs := fun p => if p = "/profile1.json" then some "notjson" else none

/-- An active profile-1 state with a loaded document named "Old". -/
def cSt1 : SysState :=
  { currentProfile := 1
    profileDoc := { profile_name := "Old", idle_animation := "none",
                    default_delay := some 30, keys := [] }
    profileLoaded := true, idleAnimation := 0 }

/-- C1 counterexample: with the active document named "Old" and profile 1's
backing file holding malformed contents, the failed `loadProfile` does
return failure and does keep the active id and loaded flag — but the
in-memory profile document the interpreter consults is no longer the
previous one: `deserializeJson(profileDoc, s)` parsed into the live global
and cleared it, so its name now reads as the cleared document's fallback
instead of "Old".  This refutes "the in-memory profile document …
is left unchanged — the load is all-or-nothing". -/
theorem loadProfile_parse_failure_clobbers_doc_cex :
    cSt1.profileDoc.profile_name = "Old"
    ∧ (loadProfile cParseNone cFs1 cSt1 1).2.2 = false
    ∧ (loadProfile cParseNone cFs1 cSt1 1).2.1.currentProfile = cSt1.currentProfile
    ∧ (loadProfile cParseNone cFs1 cSt1 1).2.1.profileLoaded = cSt1.profileLoaded
    ∧ (loadProfile cParseNone cFs1 cSt1 1).2.1.profileDoc.profile_name
        ≠ cSt1.profileDoc.profile_name :=
  ⟨by decide, by decide, by decide, by decide, by decide⟩

/-- C1 (amended): for an in-range id whose backing file exists with
nonempty contents that fail JSON parsing, `loadProfile` logs the error and
returns failure with the filesystem, the active id, the loaded flag and
the idle mode unchanged — but the previously active in-memory document is
*not* retained: the source parses directly into the live global document
(`deserializeJson(profileDoc, s)` clears its destination before parsing),
so after a failed load the interpreter is left consulting a cleared
document while `profileLoaded` is still set.  The load is all-or-nothing
for the id and flag, not for the document. -/
theorem loadProfile_parse_failure_keeps_id_flag_not_doc
    (parse : String → Option ProfileDoc) (fs : Fs) (st : SysState)
    (id : Int) (s : String)
    (h1 : 1 ≤ id) (h2 : id ≤ 3) (hf : fs (profilePath id) = some s)
    (hs : s.length ≠ 0) (hp : parse s = none) :
    loadProfile parse fs st id = (fs, { st with profileDoc := emptyDoc }, false) := by
  have hr : ¬ (id < 1 ∨ id > 3) := by omega
  have hens : ensureDefaultProfile fs id = fs := by
    simp [ensureDefaultProfile, hr, hf]
  simp [loadProfile, hr, hens, readFileStr, hf, hs, hp]

/-- Witness for C1's amended theorem at the concrete malformed file: the
load fails, filesystem, id and flag survive, and the document is the
cleared one. -/
theorem loadProfile_parse_failure_keeps_id_flag_not_doc_inst :
    ((1 : Int) ≤ 1 ∧ (1 : Int) ≤ 3
      ∧ cFs1 (profilePath 1) = some "notjson"
      ∧ ("notjson" : String).length ≠ 0 ∧ cParseNone "notjson" = none)
    ∧ loadProfile cParseNone cFs1 cSt1 1
        = (cFs1, { cSt1 with profileDoc := emptyDoc }, false) :=
  ⟨⟨by decide, by decide, by decide, by decide, rfl⟩,
   loadProfile_parse_failure_keeps_id_flag_not_doc cParseNone cFs1 cSt1 1 "notjson"
     (by decide) (by decide) (by decide) (by decide) rfl⟩

/-! Claim C2 -/

/-- A machine on profile 1 (document named "Old") with the serial protocol
idle and `/profile1.json` holding the old document. -/
def cM2 : Machine :=
  { fs := fun p => if p = "/profile1.json" then some "OLDDOC" else none
    sys := { currentProfile := 1
             profileDoc := { profile_name := "Old", idle_animation := "none",
                             default_delay := some 30, keys := [] }
             profileLoaded := true, idleAnimation := 0 }
    ser := { recording := false, buffer := "", targetFile := "" }
    touch := { lastA := false, lastB := false, fireA := 0, fireB := 0, bothStart := 0 } }

/-- The machine after the upload session
`###BEGIN### profile1.json` / `NEWDOC` / `###END###` (the commit write
accepts all 7 payload bytes). -/
def cM2After : Machine :=
  handleLine cParseNone
    (handleLine cParseNone
      (handleLine cParseNone cM2 "###BEGIN### profile1.json" 777 7)
      "NEWDOC" 777 7)
    "###END###" 777 7

/-- C2 counterexample: uploading a document over BEGIN/END to
`/profile1.json` — exactly the currently active profile's path — commits
the new bytes to flash, yet the in-memory profile is *not* reloaded: the
whole `SysState` (document, id, loaded flag) is unchanged and the active
document is still named "Old", so a subsequent status query cannot report
the newly uploaded profile name.  The END handler has no reload call. -/
theorem upload_active_path_no_reload_cex :
    profilePath cM2.sys.currentProfile = "/profile1.json"
    ∧ (handleLine cParseNone cM2 "###BEGIN### profile1.json" 777 7).ser.targetFile
        = "/profile1.json"
    ∧ cM2After.fs "/profile1.json" = some "NEWDOC\n"
    ∧ cM2After.sys = cM2.sys
    ∧ cM2After.sys.profileDoc.profile_name = "Old" := by
  refine ⟨by decide, by decide, by decide, rfl, by decide⟩

/-- C2 (amended): committing a document over the BEGIN/END protocol writes
it through `atomicWriteToLittleFS` and resets the upload state machine, but
never reloads the active profile — the in-memory profile state is unchanged
by the commit, whatever the written path. -/
theorem upload_commit_leaves_profile_unchanged
    (parse : String → Option ProfileDoc) (m : Machine) (line : String)
    (now written : Nat)
    (hrec : m.ser.recording = true) (hend : strTrim line = "###END###") :
    (handleLine parse m line now written).sys = m.sys
    ∧ (handleLine parse m line now written).ser.recording = false := by
  by_cases ht : 0 < m.ser.targetFile.length
  · simp [handleLine, hrec, hend, ht]
  · simp [handleLine, hrec, hend, ht]

/-- A machine in the middle of recording an upload for `/profile2.json`. -/
def cM2Rec : Machine :=
  { fs := fun _ => none
    sys := { currentProfile := 2
             profileDoc := { profile_name := "Cur", idle_animation := "none",
                             default_delay := some 30, keys := [] }
             profileLoaded := true, idleAnimation := 0 }
    ser := { recording := true, buffer := "X\n", targetFile := "/profile2.json" }
    touch := { lastA := false, lastB := false, fireA := 0, fireB := 0, bothStart := 0 } }

/-- Witness for C2's amended theorem: committing the recorded upload leaves
the profile state untouched and ends the recording. -/
theorem upload_commit_leaves_profile_unchanged_inst :
    cM2Rec.ser.recording = true
    ∧ strTrim "###END###" = "###END###"
    ∧ ((handleLine cParseNone cM2Rec "###END###" 5 2).sys = cM2Rec.sys
       ∧ (handleLine cParseNone cM2Rec "###END###" 5 2).ser.recording = false) :=
  ⟨rfl, by decide,
   upload_commit_leaves_profile_unchanged cParseNone cM2Rec "###END###" 5 2 rfl (by decide)⟩

/-! Claim C9 -/

/-- The claimed invariant: the active profile id lies in [1, NUM_PROFILES]. -/
def profileInv (st : SysState) : Prop :=
  1 ≤ st.currentProfile ∧ st.currentProfile ≤ 3

theorem loadProfile_inv (parse : String → Option ProfileDoc) (fs : Fs)
    (st : SysState) (id : Int) (h : profileInv st) :
    profileInv (loadProfile parse fs st id).2.1 := by
  by_cases hr : id < 1 ∨ id > 3
  · simpa [loadProfile, hr] using h
  · by_cases hs : (readFileStr (ensureDefaultProfile fs id) (profilePath id)).length = 0
    · simpa [loadProfile, hr, hs] using h
    · cases hp : parse (readFileStr (ensureDefaultProfile fs id) (profilePath id)) with
      | none => simpa [loadProfile, hr, hs, hp] using h
      | some doc =>
          have : profileInv
              { currentProfile := id, profileDoc := doc, profileLoaded := true
                idleAnimation :=
                  if doc.idle_animation = "breathe" then 1
                  else if doc.idle_animation = "rainbow" then 2 else 0 } := by
            constructor <;> simp <;> omega
          simpa [loadProfile, hr, hs, hp] using this

theorem runActs_inv_of (parse : String → Option ProfileDoc) (acts : List Action)
    (H : ∀ a ∈ acts, ∀ s : Fs × SysState,
      profileInv s.2 → profileInv (execAction parse s a).1.2) :
    ∀ s : Fs × SysState, profileInv s.2 → profileInv (runActs parse s acts).1.2 := by
  induction acts with
  | nil => intro s h; simpa [runActs] using h
  | cons a rest ih =>
      intro s h
      have h1 := H a (List.mem_cons_self a rest) s h
      have h2 := ih (fun a' ha' s' hs' => H a' (List.mem_cons_of_mem a ha') s' hs')
        (execAction parse s a).1 h1
      simpa [runActs] using h2

theorem runActsN_inv_of (parse : String → Option ProfileDoc) (acts : List Action)
    (H : ∀ a ∈ acts, ∀ s : Fs × SysState,
      profileInv s.2 → profileInv (execAction parse s a).1.2) :
    ∀ (n : Nat) (s : Fs × SysState),
      profileInv s.2 → profileInv (runActsN parse n s acts).1.2 := by
  intro n
  induction n with
  | zero => intro s h; simpa [runActsN] using h
  | succ k ih =>
      intro s h
      have h1 := runActs_inv_of parse acts H s h
      have h2 := ih (runActs parse s acts).1 h1
      simpa [runActsN] using h2

theorem execAction_inv (parse : String → Option ProfileDoc) (a : Action) :
    ∀ s : Fs × SysState, profileInv s.2 → profileInv (execAction parse s a).1.2 := by
  intro s h
  cases a with
  | comment => simpa [execAction] using h
  | delayMs ms => simpa [execAction] using h
  | key v => simpa [execAction] using h
  | keycombo keys => simpa [execAction] using h
  | text v => simpa [execAction] using h
  | hold k => simpa [execAction] using h
  | release => simpa [execAction] using h
  | media v => simpa [execAction] using h
  | mouseMoveA x y => simpa [execAction] using h
  | mouseClickA b => simpa [execAction] using h
  | led color => rcases color with _ | ⟨r, g, b⟩ <;> simpa [execAction] using h
  | ledAnim v color => rcases color with _ | ⟨r, g, b⟩ <;> simpa [execAction] using h
  | telephonyA v => simpa [execAction] using h
  | profile v =>
      have hl := loadProfile_inv parse s.1 s.2
        (if v < 1 then 1 else if v > 3 then 3 else v) h
      simpa [execAction] using hl
  | repeatA c acts =>
      have H : ∀ a' ∈ acts, ∀ s' : Fs × SysState,
          profileInv s'.2 → profileInv (execAction parse s' a').1.2 := by
        intro a' ha'
        exact execAction_inv parse a'
      have hr := runActsN_inv_of parse acts H (sourceCount c) s h
      simpa [execAction] using hr
termination_by sizeOf a
decreasing_by
  have hlt := List.sizeOf_lt_of_mem ha'
  simp only [Action.repeatA.sizeOf_spec]
  omega

theorem runMacroForKey_inv (parse : String → Option ProfileDoc)
    (s : Fs × SysState) (keyId : Int) (h : profileInv s.2) :
    profileInv (runMacroForKey parse s keyId).2 := by
  unfold runMacroForKey
  split_ifs with hl
  · cases hf : s.2.profileDoc.keys.find? (fun kb => kb.id == keyId) with
    | none => simpa [hf] using h
    | some kb =>
        have := runActs_inv_of parse kb.actions
          (fun a _ => execAction_inv parse a) s h
        simpa [hf] using this
  · exact h

theorem cliHandleLine_inv (parse : String → Option ProfileDoc) (m : Machine)
    (line : String) (h : profileInv m.sys) :
    profileInv (cliHandleLine parse m line).sys := by
  unfold cliHandleLine
  dsimp only
  split_ifs <;>
    first
      | exact h
      | exact loadProfile_inv parse m.fs m.sys _ h

theorem handleLine_inv (parse : String → Option ProfileDoc) (m : Machine)
    (rawLine : String) (now written : Nat) (h : profileInv m.sys) :
    profileInv (handleLine parse m rawLine now written).sys := by
  unfold handleLine
  dsimp only
  split_ifs <;>
    first
      | exact h
      | exact cliHandleLine_inv parse m _ h

theorem scanTouchTick_inv (parse : String → Option ProfileDoc) (m : Machine)
    (readsA readsB : List Int) (baseA baseB : Int) (now : Nat)
    (h : profileInv m.sys) :
    profileInv (scanTouchTick parse m readsA readsB baseA baseB now).sys := by
  unfold scanTouchTick
  dsimp only
  split_ifs <;>
    first
      | exact h
      | exact loadProfile_inv parse _ _ _ h
      | exact loadProfile_inv parse _ _ _ (loadProfile_inv parse _ _ _ h)

theorem bootMachine_inv (parse : String → Option ProfileDoc) (fs0 : Fs) :
    profileInv (bootMachine parse fs0).sys := by
  unfold bootMachine
  exact loadProfile_inv parse _ initSys 1 ⟨by decide, by decide⟩

/-- C9: in every reachable state of the cooperative main loop — boot, any
sequence of serial lines (CLI and upload protocol, including
`setprofile`), touch-gesture ticks (whose `ProfileSwitch` wraps the id) and
key-press macro dispatches (whose `profile` action clamps its target) — the
active profile id lies in [1, NUM_PROFILES = 3]: it starts in range and
every mutation goes through `loadProfile`, which rejects out-of-range ids
before assigning. -/
theorem current_profile_in_range_reachable (parse : String → Option ProfileDoc)
    (m : Machine) (h : Reachable parse m) :
    1 ≤ m.sys.currentProfile ∧ m.sys.currentProfile ≤ 3 := by
  induction h with
  | boot fs0 => exact bootMachine_inv parse fs0
  | serial line now written _ ih => exact handleLine_inv parse _ line now written ih
  | touchStep readsA readsB baseA baseB now _ ih =>
      exact scanTouchTick_inv parse _ readsA readsB baseA baseB now ih
  | keyEdge keyId _ ih => exact runMacroForKey_inv parse (_, _) keyId ih

/-- An initially empty flash filesystem. -/
def cFs9 : Fs := fun _ => none

/-- Witness for C9 at the boot state over an empty filesystem. -/
theorem current_profile_in_range_reachable_inst :
    1 ≤ (bootMachine cParseNone cFs9).sys.currentProfile
    ∧ (bootMachine cParseNone cFs9).sys.currentProfile ≤ 3 :=
  current_profile_in_range_reachable cParseNone (bootMachine cParseNone cFs9)
    (Reachable.boot cFs9)

end Macropad
